import Mathlib

/-!
Verification of the EFR32MG1 sleepy-end-device firmware against its
natural-language specification.  The firmware components under study are
shallowly embedded below, translated from the C sources:

  * src/battery.c  — battery_voltage_to_percentage
  * src/sht31.c    — calculate_crc, sht31_read (I2C environment passed
                     explicitly; the uint8 state machine over
                     sensorPresent / fallbackReadCount is threaded as a
                     state value)
  * src/app.c      — session state machine (app_set_fast_poll,
                     app_start_join, app_leave_network, the steering
                     complete callback, app_stack_status_callback,
                     transition_to_normal_poll, button callbacks),
                     app_update_sensor_data and the sensor timer tick
  * src/zcl_callbacks.c — emberAfBasicClusterServerInitCallback
  * src/button.c   — button_process state machine

Machine integers are modelled as Nat with explicit reductions modulo
2^8 / 2^32 where the C code relies on wraparound.  The C float values in
the sensor conversion are modelled as exact rationals; the transcendental
synthetic fallback signal (sinf) is kept symbolic: a fallback reading is
recorded as the value of the fallback counter it was generated from.
-/

namespace Sed

/-! ## Battery monitor (src/battery.c) -/

def BATTERY_VOLTAGE_MIN_MV : Nat := 2000
def BATTERY_VOLTAGE_MAX_MV : Nat := 3200

/-- Translation of battery_voltage_to_percentage (src/battery.c, lines
73-92).  The argument is a uint16 millivolt reading; the C arithmetic
(delta * 100) / range on uint32 never overflows for uint16 inputs, so
plain Nat arithmetic is exact. -/
def battery_voltage_to_percentage (voltage_mv : Nat) : Nat :=
  if BATTERY_VOLTAGE_MAX_MV ≤ voltage_mv then
    100
  else if voltage_mv ≤ BATTERY_VOLTAGE_MIN_MV then
    0
  else
    ((voltage_mv - BATTERY_VOLTAGE_MIN_MV) * 100) /
      (BATTERY_VOLTAGE_MAX_MV - BATTERY_VOLTAGE_MIN_MV)

/-! ## SHT31 CRC (src/sht31.c, calculate_crc, lines 195-212) -/

/-- One shift-register round of the CRC-8 loop.  In the C source the
accumulator is a uint8_t, so crc & 0x80 tests the top bit and the left
shift truncates to 8 bits; the accumulator stays below 256 throughout,
hence the 128 ≤ crc test and the explicit % 256. -/
def crc_bit_step (crc : Nat) : Nat :=
  if 128 ≤ crc then ((crc * 2) % 256) ^^^ 0x31 else (crc * 2) % 256

/-- Processing of one data byte: xor into the accumulator (the C data
byte is a uint8, hence the % 256), then eight shift-register rounds. -/
def crc_byte_step (crc b : Nat) : Nat :=
  crc_bit_step (crc_bit_step (crc_bit_step (crc_bit_step
    (crc_bit_step (crc_bit_step (crc_bit_step (crc_bit_step
      (crc ^^^ (b % 256)))))))))

/-- Translation of calculate_crc: initial value 0xFF, then one
crc_byte_step per data byte, MSB first, no reflection, no final xor. -/
def calculate_crc (data : List Nat) : Nat :=
  data.foldl crc_byte_step 0xFF

/-! ## SHT31 read path (src/sht31.c, sht31_read, lines 75-132) -/

/-- Six-byte measurement frame [T_msb, T_lsb, T_crc, H_msb, H_lsb, H_crc]
delivered by the I2C read.  Bytes are uint8 values. -/
structure ShtFrame where
  b0 : Nat
  b1 : Nat
  b2 : Nat
  b3 : Nat
  b4 : Nat
  b5 : Nat
deriving DecidableEq, Repr

/-- Outcome of the two I2C transfers a read performs: whether the
measurement-command write is acked, whether the six-byte read succeeds,
and the frame it returns. -/
structure I2CEnv where
  writeOk : Bool
  readOk : Bool
  frame : ShtFrame
deriving DecidableEq, Repr

/-- Driver-private state (src/sht31.c, lines 20-21). -/
structure ShtState where
  sensorPresent : Bool
  fallbackReadCount : Nat
deriving DecidableEq, Repr

/-- Values delivered by a read.  A real reading carries the exact
datasheet conversion as rationals; a fallback reading is recorded
symbolically by the fallbackReadCount value it was generated from
(the C code computes 22.5 + 2.5*sinf(0.1*n) and
50 + 10*sinf(0.15*n + 1.57) from that counter). -/
inductive SensorValues where
  | real (t_c : ℚ) (h_rh : ℚ)
  | synthetic (n : Nat)
deriving DecidableEq, Repr

/-- Result of one sht31_read call: the boolean the C function returns,
whether the call touched the I2C bus at all, and the delivered values. -/
structure ShtReadResult where
  realRead : Bool
  attemptedI2C : Bool
  values : SensorValues
deriving DecidableEq, Repr

/-- Helper for the fallback path (generate_fallback_values,
src/sht31.c lines 218-235): increments the counter and reports a
synthetic reading indexed by the new counter value. -/
def generate_fallback_values (s : ShtState) : ShtState × SensorValues :=
  let s' : ShtState := { s with fallbackReadCount := s.fallbackReadCount + 1 }
  (s', SensorValues.synthetic s'.fallbackReadCount)

/-- Translation of sht31_read.  The temperature raw word is
(data[0] << 8) | data[1] on uint8 bytes, i.e. b0 * 256 + b1, and
likewise for humidity.  The float conversions are modelled exactly in ℚ;
the humidity clamp transcribes the two if statements of the source. -/
def sht31_read (env : I2CEnv) (s : ShtState) : ShtState × ShtReadResult :=
  if !s.sensorPresent then
    let (s', v) := generate_fallback_values s
    (s', { realRead := false, attemptedI2C := false, values := v })
  else if !env.writeOk then
    let (s', v) := generate_fallback_values { s with sensorPresent := false }
    (s', { realRead := false, attemptedI2C := true, values := v })
  else if !env.readOk then
    let (s', v) := generate_fallback_values { s with sensorPresent := false }
    (s', { realRead := false, attemptedI2C := true, values := v })
  else if calculate_crc [env.frame.b0, env.frame.b1] ≠ env.frame.b2 then
    let (s', v) := generate_fallback_values s
    (s', { realRead := false, attemptedI2C := true, values := v })
  else if calculate_crc [env.frame.b3, env.frame.b4] ≠ env.frame.b5 then
    let (s', v) := generate_fallback_values s
    (s', { realRead := false, attemptedI2C := true, values := v })
  else
    let temp_raw : Nat := env.frame.b0 * 256 + env.frame.b1
    let hum_raw : Nat := env.frame.b3 * 256 + env.frame.b4
    let t : ℚ := -45 + 175 * (temp_raw : ℚ) / 65535
    let h0 : ℚ := 100 * (hum_raw : ℚ) / 65535
    let h1 : ℚ := if h0 < 0 then 0 else h0
    let h : ℚ := if 100 < h1 then 100 else h1
    (s, { realRead := true, attemptedI2C := true, values := SensorValues.real t h })

/-- Iterated reads: the state threading of successive sht31_read calls,
collecting each result. -/
def sht31_run (s : ShtState) : List I2CEnv → ShtState × List ShtReadResult
  | [] => (s, [])
  | env :: rest =>
    let (s1, r) := sht31_read env s
    let (s2, rs) := sht31_run s1 rest
    (s2, r :: rs)

/-! ## Session state machine (src/app.c)

The session logic consults two external oracles: emberAfNetworkState()
(whether the stack considers the node joined) and the status returned by
emberAfPluginNetworkSteeringStart().  Both are passed in as booleans on
the events that consume them.  Calls into the stack are recorded in an
effect list so that claims about how often a stack write is issued can
be stated.  The joinTimestamp bookkeeping (a millisecond stamp taken on
successful join and never read back by the core) is not modelled. -/

inductive AppState where
  | INIT
  | NOT_JOINED
  | JOINING
  | JOINED_FAST_POLL
  | JOINED_NORMAL
  | LEAVING
deriving DecidableEq, Repr

/-- Session context (appContext in src/app.c); joinAttempts is a uint8
counter, kept reduced modulo 256. -/
structure AppCtx where
  state : AppState
  fastPollActive : Bool
  joinAttempts : Nat
deriving DecidableEq, Repr

/-- Calls the session logic issues into the network stack or the timer
service, in program order. -/
inductive StackCall where
  | setWakeTimeoutQs (n : Nat)
  | addTaskDataAck
  | removeTaskDataAck
  | startSteering
  | leaveNet
  | startFastPollTimer
deriving DecidableEq, Repr

def APP_FAST_POLL_INTERVAL_QS : Nat := 2
def APP_NORMAL_POLL_INTERVAL_QS : Nat := 30

/-- Translation of app_set_fast_poll (src/app.c, lines 268-283). -/
def app_set_fast_poll (enable : Bool) (c : AppCtx) : AppCtx × List StackCall :=
  if enable && !c.fastPollActive then
    ({ c with fastPollActive := true },
     [StackCall.setWakeTimeoutQs APP_FAST_POLL_INTERVAL_QS, StackCall.addTaskDataAck])
  else if !enable && c.fastPollActive then
    ({ c with fastPollActive := false },
     [StackCall.setWakeTimeoutQs APP_NORMAL_POLL_INTERVAL_QS, StackCall.removeTaskDataAck])
  else
    (c, [])

/-- Translation of app_start_join (src/app.c, lines 220-243).
netJoined is the value of emberAfNetworkState() == EMBER_JOINED_NETWORK,
steeringOk the success of emberAfPluginNetworkSteeringStart().  Note the
failure branch returns to NOT_JOINED without touching joinAttempts. -/
def app_start_join (netJoined steeringOk : Bool) (c : AppCtx) : AppCtx × List StackCall :=
  if c.state = AppState.JOINING then
    (c, [])
  else if netJoined then
    (c, [])
  else if steeringOk then
    ({ c with state := AppState.JOINING }, [StackCall.startSteering])
  else
    ({ c with state := AppState.NOT_JOINED }, [StackCall.startSteering])

/-- Translation of app_leave_network (src/app.c, lines 245-266). -/
def app_leave_network (netJoined : Bool) (c : AppCtx) : AppCtx × List StackCall :=
  if !netJoined then
    (c, [])
  else
    let c1 : AppCtx := { c with state := AppState.LEAVING }
    let (c2, calls) :=
      if c1.fastPollActive then app_set_fast_poll false c1 else (c1, [])
    (c2, calls ++ [StackCall.leaveNet])

/-- Translation of emberAfPluginNetworkSteeringCompleteCallback
(src/app.c, lines 86-117): on success enter JOINED_FAST_POLL, enable
fast poll and arm the 30 s timer; on failure return to NOT_JOINED and
increment the uint8 attempt counter. -/
def steering_complete (success : Bool) (c : AppCtx) : AppCtx × List StackCall :=
  if success then
    let (c2, calls) := app_set_fast_poll true { c with state := AppState.JOINED_FAST_POLL }
    (c2, calls ++ [StackCall.startFastPollTimer])
  else
    ({ c with state := AppState.NOT_JOINED,
              joinAttempts := (c.joinAttempts + 1) % 256 }, [])

inductive StackStatus where
  | NETWORK_UP
  | NETWORK_DOWN
  | JOIN_FAILED
  | other
deriving DecidableEq, Repr

/-- Translation of app_stack_status_callback (src/app.c, lines 353-383). -/
def app_stack_status_callback (st : StackStatus) (c : AppCtx) : AppCtx × List StackCall :=
  match st with
  | StackStatus.NETWORK_UP =>
    if c.state ≠ AppState.JOINED_FAST_POLL ∧ c.state ≠ AppState.JOINED_NORMAL then
      ({ c with state := AppState.JOINED_NORMAL }, [])
    else
      (c, [])
  | StackStatus.NETWORK_DOWN =>
    let c1 : AppCtx := { c with state := AppState.NOT_JOINED }
    if c1.fastPollActive then app_set_fast_poll false c1 else (c1, [])
  | StackStatus.JOIN_FAILED =>
    ({ c with state := AppState.NOT_JOINED }, [])
  | StackStatus.other =>
    (c, [])

/-- Translation of transition_to_normal_poll (src/app.c, lines 411-418),
reached from the fast-poll timer callback. -/
def transition_to_normal_poll (c : AppCtx) : AppCtx × List StackCall :=
  if c.state = AppState.JOINED_FAST_POLL then
    app_set_fast_poll false { c with state := AppState.JOINED_NORMAL }
  else
    (c, [])

/-- Translation of button_short_press_callback (src/app.c, lines
460-479).  In the joined states it only triggers an immediate sensor
read, which does not change the session context or issue stack calls. -/
def button_short_press_callback (netJoined steeringOk : Bool) (c : AppCtx) :
    AppCtx × List StackCall :=
  if c.state = AppState.NOT_JOINED then
    app_start_join netJoined steeringOk c
  else
    (c, [])

/-- Translation of button_long_press_callback (src/app.c, lines
481-494). -/
def button_long_press_callback (netJoined steeringOk : Bool) (c : AppCtx) :
    AppCtx × List StackCall :=
  if netJoined then
    app_leave_network netJoined c
  else
    app_start_join netJoined steeringOk c

/-- Session events.  Button events carry the network-state oracle and
the steering-start status consulted while handling them; the sensor
timer tick does not modify the session context, so it is omitted. -/
inductive SEvent where
  | stackStatus (st : StackStatus)
  | joinComplete (success : Bool)
  | fastPollExpiry
  | buttonShort (netJoined steeringOk : Bool)
  | buttonLong (netJoined steeringOk : Bool)
deriving DecidableEq, Repr

/-- One fully processed session event. -/
def appStep (e : SEvent) (c : AppCtx) : AppCtx × List StackCall :=
  match e with
  | SEvent.stackStatus st => app_stack_status_callback st c
  | SEvent.joinComplete success => steering_complete success c
  | SEvent.fastPollExpiry => transition_to_normal_poll c
  | SEvent.buttonShort nj so => button_short_press_callback nj so c
  | SEvent.buttonLong nj so => button_long_press_callback nj so c

/-- Processing of a whole event trace, accumulating stack calls. -/
def appRun (c : AppCtx) : List SEvent → AppCtx × List StackCall
  | [] => (c, [])
  | e :: rest =>
    let (c1, calls1) := appStep e c
    let (c2, calls2) := appRun c1 rest
    (c2, calls1 ++ calls2)

/-- Session context after app_init (src/app.c, lines 123-180): the
static initializer gives fastPollActive = false and joinAttempts = 0,
and the boot-time network probe selects the initial phase. -/
def app_init_state (netJoined : Bool) : AppCtx :=
  { state := if netJoined then AppState.JOINED_NORMAL else AppState.NOT_JOINED,
    fastPollActive := false,
    joinAttempts := 0 }

/-- Specification invariant of claim C2: fast_poll_active holds exactly
in phase JOINED_FAST_POLL. -/
def FastPollInv (c : AppCtx) : Prop :=
  c.fastPollActive = true ↔ c.state = AppState.JOINED_FAST_POLL

/-- Event admissibility for the amended C2: in phase JOINED_FAST_POLL
the invariant survives every event except a JOIN_FAILED notification, a
failed join-complete, or a long press taken while the network-state
oracle already reports not-joined (all three are out-of-order or
stack-inconsistent deliveries). -/
def goodEvent (c : AppCtx) (e : SEvent) : Bool :=
  if c.state = AppState.JOINED_FAST_POLL then
    match e with
    | SEvent.stackStatus StackStatus.JOIN_FAILED => false
    | SEvent.joinComplete false => false
    | SEvent.buttonLong false _ => false
    | _ => true
  else
    true

/-- A trace is good when every event is admissible in the context it is
delivered in. -/
def goodTrace (c : AppCtx) : List SEvent → Bool
  | [] => true
  | e :: rest => goodEvent c e && goodTrace (appStep e c).1 rest

/-! ## Basic cluster bring-up (src/zcl_callbacks.c, lines 41-96) -/

inductive BasicAttr where
  | manufacturerName
  | modelIdentifier
  | dateCode
  | swBuildId
  | hwVersion
  | zclVersion
  | powerSource
deriving DecidableEq, Repr

/-- Attribute payloads: the constant identity strings are kept symbolic,
numeric payloads carry their value. -/
inductive BasicVal where
  | strConst (a : BasicAttr)
  | u8 (n : Nat)
  | enum8 (n : Nat)
deriving DecidableEq, Repr

def APP_HW_VERSION : Nat := 1
def APP_ZCL_VERSION : Nat := 3
def EMBER_ZCL_POWER_SOURCE_SINGLE_PHASE_MAINS : Nat := 0x01
def EMBER_ZCL_POWER_SOURCE_BATTERY : Nat := 0x03

/-- Translation of emberAfBasicClusterServerInitCallback: the Basic
cluster attribute writes issued at endpoint bring-up, in program
order. -/
def emberAfBasicClusterServerInitCallback : List (BasicAttr × BasicVal) :=
  [ (BasicAttr.manufacturerName, BasicVal.strConst BasicAttr.manufacturerName),
    (BasicAttr.modelIdentifier, BasicVal.strConst BasicAttr.modelIdentifier),
    (BasicAttr.dateCode, BasicVal.strConst BasicAttr.dateCode),
    (BasicAttr.swBuildId, BasicVal.strConst BasicAttr.swBuildId),
    (BasicAttr.hwVersion, BasicVal.u8 APP_HW_VERSION),
    (BasicAttr.zclVersion, BasicVal.u8 APP_ZCL_VERSION),
    (BasicAttr.powerSource, BasicVal.enum8 EMBER_ZCL_POWER_SOURCE_SINGLE_PHASE_MAINS) ]

/-! ## Sensor sampling tick (src/app.c, lines 292-326 and 389-400) -/

/-- State visible to the sampling path: the driver state plus the
appContext.sensorInitialized flag frozen at app_init. -/
structure NodeState where
  sht : ShtState
  sensorInitialized : Bool
deriving DecidableEq, Repr

/-- Translation of app_update_sensor_data: performs the read and reports
whether the temperature and humidity attribute writes were issued
(they are issued iff the read succeeded or the sensor never
initialized). -/
def app_update_sensor_data (env : I2CEnv) (st : NodeState) : NodeState × Bool :=
  let (s', r) := sht31_read env st.sht
  ({ st with sht := s' }, r.realRead || !st.sensorInitialized)

/-- Observable effect of one sensor_timer_callback invocation: whether
the temperature and humidity attributes were written and whether the
battery attributes were written. -/
structure TickOut where
  sensorWrites : Bool
  batteryWrites : Bool
deriving DecidableEq, Repr

/-- Translation of sensor_timer_callback: in a joined phase it runs
app_update_sensor_data then app_update_battery_data (the latter always
writes both battery attributes); otherwise it does nothing. -/
def sensor_timer_callback (joined : Bool) (env : I2CEnv) (st : NodeState) :
    NodeState × TickOut :=
  if joined then
    let (st', wrote) := app_update_sensor_data env st
    (st', { sensorWrites := wrote, batteryWrites := true })
  else
    (st, { sensorWrites := false, batteryWrites := false })

/-- A run of sensor timer ticks, each with its own joined flag and I2C
environment. -/
def sensor_tick_run (st : NodeState) : List (Bool × I2CEnv) → NodeState × List TickOut
  | [] => (st, [])
  | (j, env) :: rest =>
    let (st1, o) := sensor_timer_callback j env st
    let (st2, os) := sensor_tick_run st1 rest
    (st2, o :: os)

/-! ## Button state machine (src/button.c)

The FSM is driven by two kinds of events: the GPIO edge ISR, which only
sets interruptPending, and button_process calls from the main loop.  A
process call observes the current time (get_time_ms, a uint32
millisecond count) and — at most once per call — the physical pin level
(is_button_physically_pressed); both are inputs of the model.  The C
duration checks use uint32 wraparound subtraction, modelled by
elapsed32. -/

inductive ButtonState where
  | IDLE
  | DEBOUNCE_PRESS
  | PRESSED
  | DEBOUNCE_RELEASE
  | LONG_PRESS_TRIGGERED
deriving DecidableEq, Repr

structure ButtonCtx where
  state : ButtonState
  pressTimestamp : Nat
  releaseTimestamp : Nat
  interruptPending : Bool
  longPressTriggered : Bool
deriving DecidableEq, Repr

/-- Static initializer of buttonContext (src/button.c, lines 39-45). -/
def buttonInit : ButtonCtx :=
  { state := ButtonState.IDLE,
    pressTimestamp := 0,
    releaseTimestamp := 0,
    interruptPending := false,
    longPressTriggered := false }

def BUTTON_DEBOUNCE_MS : Nat := 50
def BUTTON_LONG_PRESS_MS : Nat := 3000

/-- Wraparound uint32 difference currentTime - timestamp, for operands
already reduced below 2^32. -/
def elapsed32 (now ts : Nat) : Nat :=
  (now + 4294967296 - ts) % 4294967296

inductive PressKind where
  | short
  | long
deriving DecidableEq, Repr

/-- An emitted press callback, instrumented with the context data at the
moment of emission: the call time and the press and release timestamps
recorded by debouncing. -/
structure Emission where
  kind : PressKind
  time : Nat
  press : Nat
  release : Nat
deriving DecidableEq, Repr

/-- Translation of button_process (src/button.c, lines 80-181).  The
PRESSED case first consumes a pending release edge and then — in the
same call, as in the source, where the long-press check follows the
interrupt block without an early break — runs the long-press check. -/
def button_process (currentTime : Nat) (pinPressed : Bool) (c : ButtonCtx) :
    ButtonCtx × Option Emission :=
  match c.state with
  | ButtonState.IDLE =>
    if c.interruptPending then
      let c1 : ButtonCtx := { c with interruptPending := false }
      if pinPressed then
        ({ c1 with state := ButtonState.DEBOUNCE_PRESS,
                   pressTimestamp := currentTime }, none)
      else
        (c1, none)
    else
      (c, none)
  | ButtonState.DEBOUNCE_PRESS =>
    if BUTTON_DEBOUNCE_MS ≤ elapsed32 currentTime c.pressTimestamp then
      if pinPressed then
        ({ c with state := ButtonState.PRESSED, longPressTriggered := false }, none)
      else
        ({ c with state := ButtonState.IDLE }, none)
    else
      (c, none)
  | ButtonState.PRESSED =>
    let c1 : ButtonCtx :=
      if c.interruptPending then
        let c2 : ButtonCtx := { c with interruptPending := false }
        if !pinPressed then
          { c2 with state := ButtonState.DEBOUNCE_RELEASE,
                    releaseTimestamp := currentTime }
        else
          c2
      else
        c
    if c1.longPressTriggered = false ∧
        BUTTON_LONG_PRESS_MS ≤ elapsed32 currentTime c1.pressTimestamp then
      ({ c1 with longPressTriggered := true,
                 state := ButtonState.LONG_PRESS_TRIGGERED },
       some { kind := PressKind.long, time := currentTime,
              press := c1.pressTimestamp, release := c1.releaseTimestamp })
    else
      (c1, none)
  | ButtonState.DEBOUNCE_RELEASE =>
    if BUTTON_DEBOUNCE_MS ≤ elapsed32 currentTime c.releaseTimestamp then
      if !pinPressed then
        if !c.longPressTriggered then
          ({ c with state := ButtonState.IDLE },
           some { kind := PressKind.short, time := currentTime,
                  press := c.pressTimestamp, release := c.releaseTimestamp })
        else
          ({ c with state := ButtonState.IDLE }, none)
      else
        ({ c with state := ButtonState.PRESSED }, none)
    else
      (c, none)
  | ButtonState.LONG_PRESS_TRIGGERED =>
    if c.interruptPending then
      let c1 : ButtonCtx := { c with interruptPending := false }
      if !pinPressed then
        ({ c1 with state := ButtonState.DEBOUNCE_RELEASE,
                   releaseTimestamp := currentTime }, none)
      else
        (c1, none)
    else
      (c, none)

/-- Trace events: a GPIO edge interrupt (button_gpio_callback, which
only sets interruptPending) or one button_process call with its observed
time and pin level. -/
inductive BEvent where
  | irq
  | proc (t : Nat) (pinPressed : Bool)
deriving DecidableEq, Repr

def buttonStep (c : ButtonCtx) : BEvent → ButtonCtx × Option Emission
  | BEvent.irq => ({ c with interruptPending := true }, none)
  | BEvent.proc t pin => button_process t pin c

/-- Folding a whole event trace, collecting emissions chronologically. -/
def buttonRun (c : ButtonCtx) : List BEvent → ButtonCtx × List Emission
  | [] => (c, [])
  | e :: rest =>
    let (c1, em) := buttonStep c e
    let (c2, ems) := buttonRun c1 rest
    (c2, em.toList ++ ems)

/-- Validity of a trace relative to a time lower bound: the millisecond
clock observed by successive process calls is monotone and (as the span
hypothesis under which uint32 differences are exact) below 2^32. -/
def validFrom (lo : Nat) : List BEvent → Bool
  | [] => true
  | BEvent.irq :: rest => validFrom lo rest
  | BEvent.proc t _ :: rest =>
    decide (lo ≤ t) && decide (t < 4294967296) && validFrom t rest

/-- Per-emission soundness facts promised by the specification: a short
press has a debounce-confirmed press at least 50 ms before the recorded
release, a release re-confirmed 50 ms later, and a held interval shorter
than the long threshold; a long press fires at least 3000 ms after the
confirmed press. -/
def EmOk (em : Emission) : Prop :=
  match em.kind with
  | PressKind.short =>
    em.press + BUTTON_DEBOUNCE_MS ≤ em.release ∧
    em.release + BUTTON_DEBOUNCE_MS ≤ em.time ∧
    em.release < em.press + BUTTON_LONG_PRESS_MS
  | PressKind.long =>
    em.press + BUTTON_LONG_PRESS_MS ≤ em.time

/-- State-dependent part of the button invariant. -/
def ButtonStateInv (tLo : Nat) (c : ButtonCtx) (ems : List Emission) : Prop :=
  match c.state with
  | ButtonState.IDLE => True
  | ButtonState.DEBOUNCE_PRESS =>
    ∀ em ∈ ems, em.press < c.pressTimestamp
  | ButtonState.PRESSED =>
    c.pressTimestamp + BUTTON_DEBOUNCE_MS ≤ tLo ∧
    (c.longPressTriggered = false → ∀ em ∈ ems, em.press < c.pressTimestamp) ∧
    (c.longPressTriggered = true → c.pressTimestamp + BUTTON_LONG_PRESS_MS ≤ tLo)
  | ButtonState.DEBOUNCE_RELEASE =>
    c.pressTimestamp + BUTTON_DEBOUNCE_MS ≤ c.releaseTimestamp ∧
    (c.longPressTriggered = false →
      c.releaseTimestamp < c.pressTimestamp + BUTTON_LONG_PRESS_MS ∧
      ∀ em ∈ ems, em.press < c.pressTimestamp) ∧
    (c.longPressTriggered = true →
      c.pressTimestamp + BUTTON_LONG_PRESS_MS ≤ c.releaseTimestamp)
  | ButtonState.LONG_PRESS_TRIGGERED =>
    c.longPressTriggered = true ∧ c.pressTimestamp + BUTTON_LONG_PRESS_MS ≤ tLo

/-- Inductive invariant of the button FSM: tLo is the time of the last
processed call (0 initially); ems are the emissions so far, in order. -/
structure ButtonInv (tLo : Nat) (c : ButtonCtx) (ems : List Emission) : Prop where
  tlo_lt : tLo < 4294967296
  press_le : c.pressTimestamp ≤ tLo
  release_le : c.releaseTimestamp ≤ tLo
  ems_time : ∀ em ∈ ems, em.time ≤ tLo
  ems_ok : ∀ em ∈ ems, EmOk em
  ems_sorted : List.Pairwise (fun a b => a.press < b.press) ems
  state_inv : ButtonStateInv tLo c ems

/-- A concrete short-press trace used to witness the classification
theorem: press edge at 0 ms, press confirmed at 60 ms, release edge at
100 ms, release confirmed (and short_press emitted) at 160 ms. -/
def buttonWitnessTrace : List BEvent :=
  [BEvent.irq, BEvent.proc 0 true, BEvent.proc 60 true,
   BEvent.irq, BEvent.proc 100 false, BEvent.proc 160 false]

/-! ## Theorems -/

/-- C6: battery_voltage_to_percentage is monotone non-decreasing, is 0
at and below 2000 mV, 100 at and above 3200 mV, always lies in [0, 100],
and returns 50 at 2600 mV. -/
theorem battery_percentage_correct :
    (∀ a b : Nat, a ≤ b →
      battery_voltage_to_percentage a ≤ battery_voltage_to_percentage b) ∧
    (∀ v : Nat, v ≤ 2000 → battery_voltage_to_percentage v = 0) ∧
    (∀ v : Nat, 3200 ≤ v → battery_voltage_to_percentage v = 100) ∧
    (∀ v : Nat, battery_voltage_to_percentage v ≤ 100) ∧
    battery_voltage_to_percentage 2600 = 50 := by
  refine ⟨?_, ?_, ?_, ?_, by decide⟩
  · intro a b hab
    unfold battery_voltage_to_percentage BATTERY_VOLTAGE_MIN_MV BATTERY_VOLTAGE_MAX_MV
    split_ifs <;> omega
  · intro v hv
    unfold battery_voltage_to_percentage BATTERY_VOLTAGE_MIN_MV BATTERY_VOLTAGE_MAX_MV
    split_ifs <;> omega
  · intro v hv
    unfold battery_voltage_to_percentage BATTERY_VOLTAGE_MIN_MV BATTERY_VOLTAGE_MAX_MV
    split_ifs <;> omega
  · intro v
    unfold battery_voltage_to_percentage BATTERY_VOLTAGE_MIN_MV BATTERY_VOLTAGE_MAX_MV
    split_ifs <;> omega

/-- Witness for battery_percentage_correct at concrete voltages. -/
theorem battery_percentage_correct_witness :
    battery_voltage_to_percentage 2100 ≤ battery_voltage_to_percentage 2900 ∧
    battery_voltage_to_percentage 1500 = 0 ∧
    battery_voltage_to_percentage 4000 = 100 ∧
    battery_voltage_to_percentage 2600 ≤ 100 :=
  ⟨battery_percentage_correct.1 2100 2900 (by decide),
   battery_percentage_correct.2.1 1500 (by decide),
   battery_percentage_correct.2.2.1 4000 (by decide),
   battery_percentage_correct.2.2.2.1 2600⟩

/-- C4: the sensor CRC is CRC-8 with initial value 0xFF (value on the
empty message), matches the SHT31 datasheet vector
crc8([0xBE, 0xEF]) = 0x92, and a read on a present, acking sensor
succeeds exactly when the CRC of each two-byte channel equals the third
byte of that channel. -/
theorem crc8_datasheet_vector :
    calculate_crc [] = 0xFF ∧
    calculate_crc [0xBE, 0xEF] = 0x92 ∧
    (∀ (env : I2CEnv) (s : ShtState), s.sensorPresent = true →
      env.writeOk = true → env.readOk = true →
      ((sht31_read env s).2.realRead = true ↔
        (calculate_crc [env.frame.b0, env.frame.b1] = env.frame.b2 ∧
         calculate_crc [env.frame.b3, env.frame.b4] = env.frame.b5))) := by
  refine ⟨by decide, by decide, ?_⟩
  intro env s hs hw hr
  obtain ⟨w, rd, f⟩ := env
  obtain ⟨sp, n⟩ := s
  simp only at hs hw hr
  subst hs hw hr
  by_cases h1 : calculate_crc [f.b0, f.b1] = f.b2 <;>
    by_cases h2 : calculate_crc [f.b3, f.b4] = f.b5 <;>
    simp [sht31_read, generate_fallback_values, h1, h2]

/-- Witness for crc8_datasheet_vector at a concrete valid frame. -/
theorem crc8_datasheet_vector_witness :
    (sht31_read
        { writeOk := true, readOk := true,
          frame := ⟨0x66, 0x1A, 0x16, 0x7F, 0xFF, 0x8F⟩ }
        { sensorPresent := true, fallbackReadCount := 0 }).2.realRead = true ↔
      (calculate_crc [0x66, 0x1A] = 0x16 ∧ calculate_crc [0x7F, 0xFF] = 0x8F) :=
  crc8_datasheet_vector.2.2
    { writeOk := true, readOk := true,
      frame := ⟨0x66, 0x1A, 0x16, 0x7F, 0xFF, 0x8F⟩ }
    { sensorPresent := true, fallbackReadCount := 0 } rfl rfl rfl

/-- Range of the datasheet temperature conversion on a raw word in
[0, 65535]. -/
lemma temp_conv_bounds (x : ℚ) (h0 : 0 ≤ x) (h1 : x ≤ 65535) :
    (-45 : ℚ) ≤ -45 + 175 * x / 65535 ∧ -45 + 175 * x / 65535 ≤ 130 := by
  constructor
  · have h2 : (0 : ℚ) ≤ 175 * x / 65535 := by positivity
    linarith
  · have h2 : 175 * x / 65535 ≤ 175 := by
      rw [div_le_iff (by norm_num)]
      linarith
    linarith

/-- Range of the datasheet humidity conversion on a raw word in
[0, 65535]. -/
lemma hum_conv_bounds (x : ℚ) (h0 : 0 ≤ x) (h1 : x ≤ 65535) :
    (0 : ℚ) ≤ 100 * x / 65535 ∧ 100 * x / 65535 ≤ 100 := by
  constructor
  · positivity
  · rw [div_le_iff (by norm_num)]
    linarith

/-- C3: on a present sensor with both transfers succeeding, a frame
whose two CRCs verify yields realRead = true with the exact datasheet
conversions t = -45 + 175 * T_raw / 65535 and h = 100 * H_raw / 65535
(the clamp to [0, 100] is the identity for uint8 frame bytes), and both
values lie in the datasheet ranges [-45, 130] °C and [0, 100] %. -/
theorem sht31_read_valid_frame (b0 b1 b2 b3 b4 b5 : Nat) (s : ShtState) (env : I2CEnv)
    (hb0 : b0 < 256) (hb1 : b1 < 256) (hb3 : b3 < 256) (hb4 : b4 < 256)
    (hs : s.sensorPresent = true)
    (henv : env = { writeOk := true, readOk := true, frame := ⟨b0, b1, b2, b3, b4, b5⟩ })
    (hcT : calculate_crc [b0, b1] = b2)
    (hcH : calculate_crc [b3, b4] = b5) :
    (sht31_read env s).2.realRead = true ∧
    (sht31_read env s).2.values =
      SensorValues.real (-45 + 175 * ((b0 * 256 + b1 : Nat) : ℚ) / 65535)
                        (100 * ((b3 * 256 + b4 : Nat) : ℚ) / 65535) ∧
    (-45 : ℚ) ≤ -45 + 175 * ((b0 * 256 + b1 : Nat) : ℚ) / 65535 ∧
    -45 + 175 * ((b0 * 256 + b1 : Nat) : ℚ) / 65535 ≤ 130 ∧
    (0 : ℚ) ≤ 100 * ((b3 * 256 + b4 : Nat) : ℚ) / 65535 ∧
    100 * ((b3 * 256 + b4 : Nat) : ℚ) / 65535 ≤ 100 := by
  subst henv
  have hbT : b0 * 256 + b1 ≤ 65535 := by clear hcT hcH; omega
  have hbH : b3 * 256 + b4 ≤ 65535 := by clear hcT hcH; omega
  have hTle : ((b0 * 256 + b1 : Nat) : ℚ) ≤ 65535 := by exact_mod_cast hbT
  have hHle : ((b3 * 256 + b4 : Nat) : ℚ) ≤ 65535 := by exact_mod_cast hbH
  have hT := temp_conv_bounds ((b0 * 256 + b1 : Nat) : ℚ) (Nat.cast_nonneg _) hTle
  have hH := hum_conv_bounds ((b3 * 256 + b4 : Nat) : ℚ) (Nat.cast_nonneg _) hHle
  have hH2 := hH
  push_cast at hH2
  obtain ⟨sp, n⟩ := s
  simp only at hs
  subst hs
  refine ⟨?_, ?_, hT.1, hT.2, hH.1, hH.2⟩
  · simp [sht31_read, hcT, hcH]
  · simp [sht31_read, hcT, hcH]
    rw [if_neg (not_lt.2 hH2.1), if_neg (not_lt.2 hH2.2)]

/-- Witness for sht31_read_valid_frame at the concrete frame
[0x66, 0x1A, 0x16, 0x7F, 0xFF, 0x8F] from the specification scenario. -/
theorem sht31_read_valid_frame_witness :
    (sht31_read
        { writeOk := true, readOk := true,
          frame := ⟨0x66, 0x1A, 0x16, 0x7F, 0xFF, 0x8F⟩ }
        { sensorPresent := true, fallbackReadCount := 0 }).2.realRead = true ∧
    (sht31_read
        { writeOk := true, readOk := true,
          frame := ⟨0x66, 0x1A, 0x16, 0x7F, 0xFF, 0x8F⟩ }
        { sensorPresent := true, fallbackReadCount := 0 }).2.values =
      SensorValues.real (-45 + 175 * ((0x66 * 256 + 0x1A : Nat) : ℚ) / 65535)
                        (100 * ((0x7F * 256 + 0xFF : Nat) : ℚ) / 65535) ∧
    (-45 : ℚ) ≤ -45 + 175 * ((0x66 * 256 + 0x1A : Nat) : ℚ) / 65535 ∧
    -45 + 175 * ((0x66 * 256 + 0x1A : Nat) : ℚ) / 65535 ≤ 130 ∧
    (0 : ℚ) ≤ 100 * ((0x7F * 256 + 0xFF : Nat) : ℚ) / 65535 ∧
    100 * ((0x7F * 256 + 0xFF : Nat) : ℚ) / 65535 ≤ 100 :=
  sht31_read_valid_frame 0x66 0x1A 0x16 0x7F 0xFF 0x8F
    { sensorPresent := true, fallbackReadCount := 0 } _
    (by decide) (by decide) (by decide) (by decide) rfl rfl
    (by decide) (by decide)

/-- C5: an I2C transfer failure during a read on a present sensor
demotes sensorPresent permanently — every later read returns the
synthetic fallback without touching the bus — whereas a CRC mismatch
returns the fallback for that read only, leaves sensorPresent set, and
the next read attempts I2C again. -/
theorem sht31_failure_policy :
    (∀ (env : I2CEnv) (s : ShtState), s.sensorPresent = true →
      (env.writeOk = false ∨ env.readOk = false) →
      ((sht31_read env s).1.sensorPresent = false ∧
       (sht31_read env s).2.realRead = false ∧
       (sht31_read env s).2.attemptedI2C = true)) ∧
    (∀ (s : ShtState) (envs : List I2CEnv), s.sensorPresent = false →
      ((sht31_run s envs).1.sensorPresent = false ∧
       ∀ r ∈ (sht31_run s envs).2, r.realRead = false ∧ r.attemptedI2C = false)) ∧
    (∀ (env : I2CEnv) (s : ShtState), s.sensorPresent = true →
      env.writeOk = true → env.readOk = true →
      (calculate_crc [env.frame.b0, env.frame.b1] ≠ env.frame.b2 ∨
        calculate_crc [env.frame.b3, env.frame.b4] ≠ env.frame.b5) →
      ((sht31_read env s).1.sensorPresent = true ∧
       (sht31_read env s).2.realRead = false ∧
       (sht31_read env s).2.attemptedI2C = true ∧
       ∀ env2 : I2CEnv, (sht31_read env2 (sht31_read env s).1).2.attemptedI2C = true)) := by
  refine ⟨?_, ?_, ?_⟩
  · intro env s hs hfail
    obtain ⟨w, rd, f⟩ := env
    obtain ⟨sp, n⟩ := s
    simp only at hs
    subst hs
    rcases hfail with hf | hf
    · simp only at hf
      subst hf
      simp [sht31_read, generate_fallback_values]
    · simp only at hf
      subst hf
      cases w <;> simp [sht31_read, generate_fallback_values]
  · intro s envs hs
    induction envs generalizing s with
    | nil => simpa [sht31_run] using hs
    | cons env rest ih =>
      obtain ⟨sp, n⟩ := s
      simp only at hs
      subst hs
      have hstep :
          sht31_read env ⟨false, n⟩ =
            (⟨false, n + 1⟩,
             { realRead := false, attemptedI2C := false,
               values := SensorValues.synthetic (n + 1) }) := by
        simp [sht31_read, generate_fallback_values]
      have hrest := ih ⟨false, n + 1⟩ rfl
      simp only [sht31_run, hstep]
      refine ⟨hrest.1, ?_⟩
      intro r hr
      rcases List.mem_cons.1 hr with h | h
      · subst h; exact ⟨rfl, rfl⟩
      · exact hrest.2 r h
  · intro env s hs hw hr hcrc
    obtain ⟨w, rd, f⟩ := env
    obtain ⟨sp, n⟩ := s
    simp only at hs hw hr
    subst hs hw hr
    have hread :
        (sht31_read ⟨true, true, f⟩ ⟨true, n⟩).1 = ⟨true, n + 1⟩ ∧
        (sht31_read ⟨true, true, f⟩ ⟨true, n⟩).2.realRead = false ∧
        (sht31_read ⟨true, true, f⟩ ⟨true, n⟩).2.attemptedI2C = true := by
      rcases hcrc with hc | hc
      · simp [sht31_read, generate_fallback_values, hc]
      · by_cases hcT : calculate_crc [f.b0, f.b1] = f.b2
        · simp [sht31_read, generate_fallback_values, hcT, hc]
        · simp [sht31_read, generate_fallback_values, hcT]
    refine ⟨by rw [hread.1], hread.2.1, hread.2.2, ?_⟩
    intro env2
    rw [hread.1]
    obtain ⟨w2, rd2, f2⟩ := env2
    cases w2 <;> cases rd2 <;>
      simp [sht31_read, generate_fallback_values] <;>
      split_ifs <;> simp

/-- Witness for sht31_failure_policy: a concrete failed write, a
concrete absent-sensor run, and a concrete CRC mismatch. -/
theorem sht31_failure_policy_witness :
    ((sht31_read
        { writeOk := false, readOk := true, frame := ⟨0, 0, 0, 0, 0, 0⟩ }
        { sensorPresent := true, fallbackReadCount := 0 }).1.sensorPresent = false ∧
     (sht31_read
        { writeOk := false, readOk := true, frame := ⟨0, 0, 0, 0, 0, 0⟩ }
        { sensorPresent := true, fallbackReadCount := 0 }).2.realRead = false ∧
     (sht31_read
        { writeOk := false, readOk := true, frame := ⟨0, 0, 0, 0, 0, 0⟩ }
        { sensorPresent := true, fallbackReadCount := 0 }).2.attemptedI2C = true) ∧
    ((sht31_run { sensorPresent := false, fallbackReadCount := 0 }
        [{ writeOk := true, readOk := true, frame := ⟨0, 0, 0, 0, 0, 0⟩ }]).1.sensorPresent
        = false ∧
     ∀ r ∈ (sht31_run { sensorPresent := false, fallbackReadCount := 0 }
        [{ writeOk := true, readOk := true, frame := ⟨0, 0, 0, 0, 0, 0⟩ }]).2,
       r.realRead = false ∧ r.attemptedI2C = false) :=
  ⟨sht31_failure_policy.1
      { writeOk := false, readOk := true, frame := ⟨0, 0, 0, 0, 0, 0⟩ }
      { sensorPresent := true, fallbackReadCount := 0 } rfl (Or.inl rfl),
   sht31_failure_policy.2.1
      { sensorPresent := false, fallbackReadCount := 0 }
      [{ writeOk := true, readOk := true, frame := ⟨0, 0, 0, 0, 0, 0⟩ }] rfl⟩

/-- C9: at Basic cluster bring-up the power source attribute is written
exactly once, but with the single-phase-mains enum 0x01 rather than the
battery enum 0x03 the specification intends (the source line even
carries the comment that it sets the power source to battery). -/
theorem basic_power_source_write :
    emberAfBasicClusterServerInitCallback.filter
        (fun w => w.1 = BasicAttr.powerSource) =
      [(BasicAttr.powerSource,
        BasicVal.enum8 EMBER_ZCL_POWER_SOURCE_SINGLE_PHASE_MAINS)] ∧
    EMBER_ZCL_POWER_SOURCE_SINGLE_PHASE_MAINS ≠ EMBER_ZCL_POWER_SOURCE_BATTERY := by
  decide

/-- C7: app_set_fast_poll is idempotent.  From inactive state, enabling
issues the fast wake-timeout write and add-task exactly once and a
second enable is a complete no-op; symmetrically for disabling from the
active state. -/
theorem set_fast_poll_idempotent (c : AppCtx) :
    (c.fastPollActive = false →
      (app_set_fast_poll true c).2 =
        [StackCall.setWakeTimeoutQs APP_FAST_POLL_INTERVAL_QS, StackCall.addTaskDataAck] ∧
      (app_set_fast_poll true c).1.fastPollActive = true ∧
      (app_set_fast_poll true (app_set_fast_poll true c).1).2 = [] ∧
      (app_set_fast_poll true (app_set_fast_poll true c).1).1 =
        (app_set_fast_poll true c).1) ∧
    (c.fastPollActive = true →
      (app_set_fast_poll false c).2 =
        [StackCall.setWakeTimeoutQs APP_NORMAL_POLL_INTERVAL_QS, StackCall.removeTaskDataAck] ∧
      (app_set_fast_poll false c).1.fastPollActive = false ∧
      (app_set_fast_poll false (app_set_fast_poll false c).1).2 = [] ∧
      (app_set_fast_poll false (app_set_fast_poll false c).1).1 =
        (app_set_fast_poll false c).1) := by
  obtain ⟨st, fp, n⟩ := c
  cases fp <;> simp [app_set_fast_poll]

/-- Witness for set_fast_poll_idempotent at a concrete context. -/
theorem set_fast_poll_idempotent_witness :
    (app_set_fast_poll true
        { state := AppState.JOINED_FAST_POLL, fastPollActive := false,
          joinAttempts := 0 }).2 =
      [StackCall.setWakeTimeoutQs APP_FAST_POLL_INTERVAL_QS, StackCall.addTaskDataAck] ∧
    (app_set_fast_poll true
        { state := AppState.JOINED_FAST_POLL, fastPollActive := false,
          joinAttempts := 0 }).1.fastPollActive = true ∧
    (app_set_fast_poll true (app_set_fast_poll true
        { state := AppState.JOINED_FAST_POLL, fastPollActive := false,
          joinAttempts := 0 }).1).2 = [] ∧
    (app_set_fast_poll true (app_set_fast_poll true
        { state := AppState.JOINED_FAST_POLL, fastPollActive := false,
          joinAttempts := 0 }).1).1 =
      (app_set_fast_poll true
        { state := AppState.JOINED_FAST_POLL, fastPollActive := false,
          joinAttempts := 0 }).1 :=
  (set_fast_poll_idempotent
      { state := AppState.JOINED_FAST_POLL, fastPollActive := false,
        joinAttempts := 0 }).1 rfl

/-- C8 counterexample: from NOT_JOINED, a short press whose steering
start fails (netJoined = false, steeringOk = false) returns the session
to NOT_JOINED with joinAttempts still 0 — not incremented by one as the
claim requires for the steering-failure path. -/
theorem join_attempts_steering_cex :
    (appStep (SEvent.buttonShort false false)
        { state := AppState.NOT_JOINED, fastPollActive := false,
          joinAttempts := 0 }).1.state = AppState.NOT_JOINED ∧
    (appStep (SEvent.buttonShort false false)
        { state := AppState.NOT_JOINED, fastPollActive := false,
          joinAttempts := 0 }).1.joinAttempts = 0 ∧
    (0 : Nat) ≠ 0 + 1 := by
  decide

/-- C8 amended: joinAttempts is incremented (once, modulo its uint8
width) exactly by a failed join-complete, which also returns the phase
to NOT_JOINED; every other event — including a failed steering start,
which returns to NOT_JOINED silently — leaves joinAttempts unchanged. -/
theorem join_attempts_increment (e : SEvent) (c : AppCtx) :
    ((appStep e c).1.joinAttempts =
      if e = SEvent.joinComplete false then (c.joinAttempts + 1) % 256
      else c.joinAttempts) ∧
    (e = SEvent.joinComplete false → (appStep e c).1.state = AppState.NOT_JOINED) ∧
    (c.state = AppState.NOT_JOINED → e = SEvent.buttonShort false false →
      (appStep e c).1.state = AppState.NOT_JOINED) := by
  obtain ⟨st, fp, n⟩ := c
  cases e with
  | stackStatus s =>
    cases s <;> cases fp <;>
      simp [appStep, app_stack_status_callback, app_set_fast_poll] <;>
      split_ifs <;> simp
  | joinComplete success =>
    cases success <;> cases fp <;>
      simp [appStep, steering_complete, app_set_fast_poll]
  | fastPollExpiry =>
    cases fp <;>
      simp [appStep, transition_to_normal_poll, app_set_fast_poll] <;>
      split_ifs <;> simp
  | buttonShort nj so =>
    cases nj <;> cases so <;> cases st <;> cases fp <;>
      simp [appStep, button_short_press_callback, app_start_join]
  | buttonLong nj so =>
    cases nj <;> cases so <;> cases st <;> cases fp <;>
      simp [appStep, button_long_press_callback, app_start_join,
        app_leave_network, app_set_fast_poll]

/-- C2 counterexample: after a successful join the phase is
JOINED_FAST_POLL with fast poll active; a subsequent out-of-order
JOIN_FAILED stack status moves the phase to NOT_JOINED without clearing
fastPollActive, so the invariant fails at a quiescent point. -/
theorem fast_poll_invariant_cex :
    (appRun (app_init_state false)
        [SEvent.buttonShort false true,
         SEvent.joinComplete true,
         SEvent.stackStatus StackStatus.JOIN_FAILED]).1.state =
      AppState.NOT_JOINED ∧
    (appRun (app_init_state false)
        [SEvent.buttonShort false true,
         SEvent.joinComplete true,
         SEvent.stackStatus StackStatus.JOIN_FAILED]).1.fastPollActive = true ∧
    ¬ FastPollInv (appRun (app_init_state false)
        [SEvent.buttonShort false true,
         SEvent.joinComplete true,
         SEvent.stackStatus StackStatus.JOIN_FAILED]).1 := by
  refine ⟨rfl, rfl, ?_⟩
  unfold FastPollInv
  decide

/-- Preservation of the fast-poll invariant by a single admissible
event. -/
lemma fast_poll_step (c : AppCtx) (e : SEvent) (hInv : FastPollInv c)
    (hGood : goodEvent c e = true) : FastPollInv (appStep e c).1 := by
  obtain ⟨st, fp, n⟩ := c
  unfold FastPollInv at hInv ⊢
  simp only at hInv
  cases e with
  | stackStatus s =>
    cases s <;> cases st <;> cases fp <;>
      simp_all [appStep, app_stack_status_callback, app_set_fast_poll, goodEvent]
  | joinComplete success =>
    cases success <;> cases st <;> cases fp <;>
      simp_all [appStep, steering_complete, app_set_fast_poll, goodEvent]
  | fastPollExpiry =>
    cases st <;> cases fp <;>
      simp_all [appStep, transition_to_normal_poll, app_set_fast_poll, goodEvent]
  | buttonShort nj so =>
    cases nj <;> cases so <;> cases st <;> cases fp <;>
      simp_all [appStep, button_short_press_callback, app_start_join, goodEvent]
  | buttonLong nj so =>
    cases nj <;> cases so <;> cases st <;> cases fp <;>
      simp_all [appStep, button_long_press_callback, app_start_join,
        app_leave_network, app_set_fast_poll, goodEvent]

/-- C2 amended: fast_poll_active ⇔ phase = JOINED_FAST_POLL holds at
every quiescent point of every trace in which no JOIN_FAILED status, no
failed join-complete, and no long press under a not-joined network
oracle is delivered while the phase is JOINED_FAST_POLL (the three
out-of-order deliveries the counterexample exhibits). -/
theorem fast_poll_invariant_preserved (c : AppCtx) (evs : List SEvent)
    (hInv : FastPollInv c) (hGood : goodTrace c evs = true) :
    FastPollInv (appRun c evs).1 := by
  induction evs generalizing c with
  | nil => simpa [appRun] using hInv
  | cons e rest ih =>
    simp only [goodTrace, Bool.and_eq_true] at hGood
    have h1 := fast_poll_step c e hInv hGood.1
    have h2 := ih (appStep e c).1 h1 hGood.2
    simpa [appRun] using h2

/-- Witness for fast_poll_invariant_preserved on a concrete good trace:
join, fast-poll expiry, then a network-down. -/
theorem fast_poll_invariant_preserved_witness :
    FastPollInv (appRun (app_init_state false)
        [SEvent.buttonShort false true,
         SEvent.joinComplete true,
         SEvent.fastPollExpiry,
         SEvent.stackStatus StackStatus.NETWORK_DOWN]).1 :=
  fast_poll_invariant_preserved (app_init_state false)
    [SEvent.buttonShort false true,
     SEvent.joinComplete true,
     SEvent.fastPollExpiry,
     SEvent.stackStatus StackStatus.NETWORK_DOWN]
    (by unfold FastPollInv; decide)
    (by decide)

/-- Witness for join_attempts_increment: a failed join-complete from
JOINING increments the counter and returns to NOT_JOINED. -/
theorem join_attempts_increment_witness :
    ((appStep (SEvent.joinComplete false)
        { state := AppState.JOINING, fastPollActive := false,
          joinAttempts := 4 }).1.joinAttempts =
      if SEvent.joinComplete false = SEvent.joinComplete false then (4 + 1) % 256
      else 4) ∧
    (appStep (SEvent.joinComplete false)
        { state := AppState.JOINING, fastPollActive := false,
          joinAttempts := 4 }).1.state = AppState.NOT_JOINED :=
  ⟨(join_attempts_increment (SEvent.joinComplete false)
      { state := AppState.JOINING, fastPollActive := false, joinAttempts := 4 }).1,
   (join_attempts_increment (SEvent.joinComplete false)
      { state := AppState.JOINING, fastPollActive := false, joinAttempts := 4 }).2.1 rfl⟩

/-- Permanence of the demoted driver state under one read. -/
lemma sht31_read_absent (env : I2CEnv) (s : ShtState)
    (hs : s.sensorPresent = false) :
    sht31_read env s =
      ({ sensorPresent := false, fallbackReadCount := s.fallbackReadCount + 1 },
       { realRead := false, attemptedI2C := false,
         values := SensorValues.synthetic (s.fallbackReadCount + 1) }) := by
  obtain ⟨sp, n⟩ := s
  simp only at hs
  subst hs
  simp [sht31_read, generate_fallback_values]

/-- C10: on a joined tick, if the sensor initialized but the read
reports failure, the temperature and humidity attribute writes are
skipped while the battery attributes are still written; and once
sensorPresent has been demoted (with sensorInitialized still true) the
temperature and humidity attributes are never written again on any
later tick, while every joined tick still writes the battery
attributes. -/
theorem sensor_write_skip :
    (∀ (env : I2CEnv) (st : NodeState), st.sensorInitialized = true →
      (sht31_read env st.sht).2.realRead = false →
      ((sensor_timer_callback true env st).2.sensorWrites = false ∧
       (sensor_timer_callback true env st).2.batteryWrites = true)) ∧
    (∀ (st : NodeState) (ticks : List (Bool × I2CEnv)),
      st.sht.sensorPresent = false → st.sensorInitialized = true →
      ((sensor_tick_run st ticks).1.sht.sensorPresent = false ∧
       (sensor_tick_run st ticks).1.sensorInitialized = true ∧
       ∀ o ∈ (sensor_tick_run st ticks).2, o.sensorWrites = false)) ∧
    (∀ (env : I2CEnv) (st : NodeState),
      (sensor_timer_callback true env st).2.batteryWrites = true) := by
  refine ⟨?_, ?_, ?_⟩
  · intro env st hinit hfail
    obtain ⟨sht, init⟩ := st
    simp only at hinit
    subst hinit
    simp [sensor_timer_callback, app_update_sensor_data, hfail]
  · intro st ticks
    induction ticks generalizing st with
    | nil =>
      intro hp hi
      exact ⟨by simpa [sensor_tick_run] using hp,
             by simpa [sensor_tick_run] using hi, by simp [sensor_tick_run]⟩
    | cons tick rest ih =>
      intro hp hi
      obtain ⟨j, env⟩ := tick
      obtain ⟨sht, init⟩ := st
      simp only at hp hi
      subst hi
      cases j with
      | false =>
        have h := ih ⟨sht, true⟩ hp rfl
        simp only [sensor_tick_run, sensor_timer_callback]
        refine ⟨h.1, h.2.1, ?_⟩
        intro o ho
        rcases List.mem_cons.1 ho with h1 | h1
        · subst h1; rfl
        · exact h.2.2 o h1
      | true =>
        have hread := sht31_read_absent env sht hp
        have hnext := ih ⟨{ sensorPresent := false,
                            fallbackReadCount := sht.fallbackReadCount + 1 }, true⟩ rfl rfl
        simp only [sensor_tick_run, sensor_timer_callback,
          app_update_sensor_data, hread]
        refine ⟨hnext.1, hnext.2.1, ?_⟩
        intro o ho
        rcases List.mem_cons.1 ho with h1 | h1
        · subst h1; rfl
        · exact hnext.2.2 o h1
  · intro env st
    simp [sensor_timer_callback, app_update_sensor_data]

/-- Witness for sensor_write_skip: a concrete failed-write tick and a
concrete two-tick run from demoted state. -/
theorem sensor_write_skip_witness :
    ((sensor_timer_callback true
        { writeOk := false, readOk := true, frame := ⟨0, 0, 0, 0, 0, 0⟩ }
        { sht := { sensorPresent := true, fallbackReadCount := 0 },
          sensorInitialized := true }).2.sensorWrites = false ∧
     (sensor_timer_callback true
        { writeOk := false, readOk := true, frame := ⟨0, 0, 0, 0, 0, 0⟩ }
        { sht := { sensorPresent := true, fallbackReadCount := 0 },
          sensorInitialized := true }).2.batteryWrites = true) ∧
    ((sensor_tick_run
        { sht := { sensorPresent := false, fallbackReadCount := 1 },
          sensorInitialized := true }
        [(true, { writeOk := true, readOk := true, frame := ⟨0, 0, 0, 0, 0, 0⟩ }),
         (false, { writeOk := true, readOk := true, frame := ⟨0, 0, 0, 0, 0, 0⟩ })]).1.sht.sensorPresent
        = false ∧
     (sensor_tick_run
        { sht := { sensorPresent := false, fallbackReadCount := 1 },
          sensorInitialized := true }
        [(true, { writeOk := true, readOk := true, frame := ⟨0, 0, 0, 0, 0, 0⟩ }),
         (false, { writeOk := true, readOk := true, frame := ⟨0, 0, 0, 0, 0, 0⟩ })]).1.sensorInitialized
        = true ∧
     ∀ o ∈ (sensor_tick_run
        { sht := { sensorPresent := false, fallbackReadCount := 1 },
          sensorInitialized := true }
        [(true, { writeOk := true, readOk := true, frame := ⟨0, 0, 0, 0, 0, 0⟩ }),
         (false, { writeOk := true, readOk := true, frame := ⟨0, 0, 0, 0, 0, 0⟩ })]).2,
       o.sensorWrites = false) :=
  ⟨sensor_write_skip.1
      { writeOk := false, readOk := true, frame := ⟨0, 0, 0, 0, 0, 0⟩ }
      { sht := { sensorPresent := true, fallbackReadCount := 0 },
        sensorInitialized := true } rfl (by decide),
   sensor_write_skip.2.1
      { sht := { sensorPresent := false, fallbackReadCount := 1 },
        sensorInitialized := true }
      [(true, { writeOk := true, readOk := true, frame := ⟨0, 0, 0, 0, 0, 0⟩ }),
       (false, { writeOk := true, readOk := true, frame := ⟨0, 0, 0, 0, 0, 0⟩ })]
      rfl rfl⟩

/-- Wraparound subtraction agrees with plain subtraction for ordered
operands below 2^32. -/
lemma elapsed32_eq (now ts : Nat) (h1 : ts ≤ now) (h2 : now < 4294967296) :
    elapsed32 now ts = now - ts := by
  unfold elapsed32
  omega

/-- Every well-formed emission was recorded strictly after its press
timestamp. -/
lemma emok_press_lt_time (em : Emission) (h : EmOk em) : em.press < em.time := by
  obtain ⟨k, tm, pr, rl⟩ := em
  show pr < tm
  cases k <;>
    simp only [EmOk, BUTTON_DEBOUNCE_MS, BUTTON_LONG_PRESS_MS] at h <;> omega

/-- Appending a fresh emission with a strictly larger press timestamp
keeps the emission list strictly increasing. -/
lemma pairwise_append_one {ems : List Emission} {em : Emission}
    (h : List.Pairwise (fun a b => a.press < b.press) ems)
    (h2 : ∀ a ∈ ems, a.press < em.press) :
    List.Pairwise (fun a b => a.press < b.press) (ems ++ [em]) := by
  refine List.pairwise_append.2 ⟨h, List.pairwise_singleton _ _, ?_⟩
  intro a ha b hb
  rw [List.mem_singleton.1 hb]
  exact h2 a ha

/-- Assembling the invariant when the step emits nothing. -/
lemma button_inv_mk_noemit {t : Nat} {c' : ButtonCtx} {ems : List Emission}
    (h32 : t < 4294967296) (hp : c'.pressTimestamp ≤ t)
    (hr : c'.releaseTimestamp ≤ t)
    (hemt : ∀ em ∈ ems, em.time ≤ t) (hemok : ∀ em ∈ ems, EmOk em)
    (hsort : List.Pairwise (fun a b => a.press < b.press) ems)
    (hst : ButtonStateInv t c' ems) :
    ButtonInv t c' (ems ++ []) := by
  simpa using ButtonInv.mk h32 hp hr hemt hemok hsort hst

/-- Assembling the invariant when the step emits one event. -/
lemma button_inv_mk_emit {t : Nat} {c' : ButtonCtx} {ems : List Emission}
    {em : Emission}
    (h32 : t < 4294967296) (hp : c'.pressTimestamp ≤ t)
    (hr : c'.releaseTimestamp ≤ t)
    (hemt : ∀ x ∈ ems, x.time ≤ t) (htm : em.time ≤ t)
    (hemok : ∀ x ∈ ems, EmOk x) (hok : EmOk em)
    (hsort : List.Pairwise (fun a b => a.press < b.press) ems)
    (hlt : ∀ x ∈ ems, x.press < em.press)
    (hst : ButtonStateInv t c' (ems ++ [em])) :
    ButtonInv t c' (ems ++ [em]) := by
  refine ⟨h32, hp, hr, ?_, ?_, pairwise_append_one hsort hlt, hst⟩
  · intro x hx
    rcases List.mem_append.1 hx with hx1 | hx1
    · exact hemt x hx1
    · rw [List.mem_singleton.1 hx1]
      exact htm
  · intro x hx
    rcases List.mem_append.1 hx with hx1 | hx1
    · exact hemok x hx1
    · rw [List.mem_singleton.1 hx1]
      exact hok

/-- Preservation of the button invariant by one button_process call at
a later time. -/
lemma button_inv_proc (t : Nat) (pin : Bool) (tLo : Nat) (c : ButtonCtx)
    (ems : List Emission) (h : ButtonInv tLo c ems) (hlo : tLo ≤ t)
    (ht : t < 4294967296) :
    ButtonInv t (button_process t pin c).1
      (ems ++ (button_process t pin c).2.toList) := by
  obtain ⟨st, p, r, ip, lf⟩ := c
  obtain ⟨h32, hp, hr, hemt, hemok, hsort, hstate⟩ := h
  dsimp only at hp hr
  have hD : BUTTON_DEBOUNCE_MS = 50 := rfl
  have hL : BUTTON_LONG_PRESS_MS = 3000 := rfl
  have hpt : p ≤ t := le_trans hp hlo
  have hrt : r ≤ t := le_trans hr hlo
  have hel_p : elapsed32 t p = t - p := elapsed32_eq t p hpt ht
  have hel_r : elapsed32 t r = t - r := elapsed32_eq t r hrt ht
  have hemt2 : ∀ em ∈ ems, em.time ≤ t := fun em hm => le_trans (hemt em hm) hlo
  have hempress : ∀ em ∈ ems, em.press < t := fun em hm =>
    lt_of_lt_of_le (emok_press_lt_time em (hemok em hm)) (hemt2 em hm)
  cases st with
  | IDLE =>
    cases ip with
    | false =>
      have heq : button_process t pin ⟨ButtonState.IDLE, p, r, false, lf⟩ =
          (⟨ButtonState.IDLE, p, r, false, lf⟩, none) := by
        simp [button_process]
      rw [heq]
      dsimp only
      exact button_inv_mk_noemit ht hpt hrt hemt2 hemok hsort trivial
    | true =>
      cases pin with
      | true =>
        have heq : button_process t true ⟨ButtonState.IDLE, p, r, true, lf⟩ =
            (⟨ButtonState.DEBOUNCE_PRESS, t, r, false, lf⟩, none) := by
          simp [button_process]
        rw [heq]
        dsimp only
        refine button_inv_mk_noemit ht (le_refl t) hrt hemt2 hemok hsort ?_
        simp only [ButtonStateInv]
        exact hempress
      | false =>
        have heq : button_process t false ⟨ButtonState.IDLE, p, r, true, lf⟩ =
            (⟨ButtonState.IDLE, p, r, false, lf⟩, none) := by
          simp [button_process]
        rw [heq]
        dsimp only
        exact button_inv_mk_noemit ht hpt hrt hemt2 hemok hsort trivial
  | DEBOUNCE_PRESS =>
    simp only [ButtonStateInv] at hstate
    by_cases hd : BUTTON_DEBOUNCE_MS ≤ elapsed32 t p
    · have hd2 := hd
      rw [hel_p] at hd2
      cases pin with
      | true =>
        have heq : button_process t true ⟨ButtonState.DEBOUNCE_PRESS, p, r, ip, lf⟩ =
            (⟨ButtonState.PRESSED, p, r, ip, false⟩, none) := by
          simp [button_process, hd]
        rw [heq]
        dsimp only
        refine button_inv_mk_noemit ht hpt hrt hemt2 hemok hsort ?_
        simp only [ButtonStateInv]
        exact ⟨by omega, fun _ => hstate, fun hff => absurd hff (by decide)⟩
      | false =>
        have heq : button_process t false ⟨ButtonState.DEBOUNCE_PRESS, p, r, ip, lf⟩ =
            (⟨ButtonState.IDLE, p, r, ip, lf⟩, none) := by
          simp [button_process, hd]
        rw [heq]
        dsimp only
        exact button_inv_mk_noemit ht hpt hrt hemt2 hemok hsort trivial
    · have heq : button_process t pin ⟨ButtonState.DEBOUNCE_PRESS, p, r, ip, lf⟩ =
          (⟨ButtonState.DEBOUNCE_PRESS, p, r, ip, lf⟩, none) := by
        simp [button_process, hd]
      rw [heq]
      dsimp only
      refine button_inv_mk_noemit ht hpt hrt hemt2 hemok hsort ?_
      simp only [ButtonStateInv]
      exact hstate
  | PRESSED =>
    simp only [ButtonStateInv] at hstate
    obtain ⟨hp50, hlf_f, hlf_t⟩ := hstate
    by_cases hlong : BUTTON_LONG_PRESS_MS ≤ elapsed32 t p
    · have hlong2 := hlong
      rw [hel_p] at hlong2
      cases lf with
      | true =>
        have hp3 := hlf_t rfl
        cases ip with
        | true =>
          cases pin with
          | false =>
            have heq : button_process t false ⟨ButtonState.PRESSED, p, r, true, true⟩ =
                (⟨ButtonState.DEBOUNCE_RELEASE, p, t, false, true⟩, none) := by
              simp [button_process]
            rw [heq]
            dsimp only
            refine button_inv_mk_noemit ht hpt (le_refl t) hemt2 hemok hsort ?_
            simp only [ButtonStateInv]
            exact ⟨by omega, fun hff => absurd hff (by decide), fun _ => by omega⟩
          | true =>
            have heq : button_process t true ⟨ButtonState.PRESSED, p, r, true, true⟩ =
                (⟨ButtonState.PRESSED, p, r, false, true⟩, none) := by
              simp [button_process]
            rw [heq]
            dsimp only
            refine button_inv_mk_noemit ht hpt hrt hemt2 hemok hsort ?_
            simp only [ButtonStateInv]
            exact ⟨by omega, fun hff => absurd hff (by decide), fun _ => by omega⟩
        | false =>
          have heq : button_process t pin ⟨ButtonState.PRESSED, p, r, false, true⟩ =
              (⟨ButtonState.PRESSED, p, r, false, true⟩, none) := by
            simp [button_process]
          rw [heq]
          dsimp only
          refine button_inv_mk_noemit ht hpt hrt hemt2 hemok hsort ?_
          simp only [ButtonStateInv]
          exact ⟨by omega, fun hff => absurd hff (by decide), fun _ => by omega⟩
      | false =>
        have hltp := hlf_f rfl
        cases ip with
        | true =>
          cases pin with
          | false =>
            have heq : button_process t false ⟨ButtonState.PRESSED, p, r, true, false⟩ =
                (⟨ButtonState.LONG_PRESS_TRIGGERED, p, t, false, true⟩,
                 some ⟨PressKind.long, t, p, t⟩) := by
              simp [button_process, hlong]
            rw [heq]
            dsimp only
            refine button_inv_mk_emit ht hpt (le_refl t) hemt2 (le_refl t) hemok
              ?_ hsort hltp ?_
            · simp only [EmOk]
              omega
            · simp only [ButtonStateInv]
              exact ⟨trivial, by omega⟩
          | true =>
            have heq : button_process t true ⟨ButtonState.PRESSED, p, r, true, false⟩ =
                (⟨ButtonState.LONG_PRESS_TRIGGERED, p, r, false, true⟩,
                 some ⟨PressKind.long, t, p, r⟩) := by
              simp [button_process, hlong]
            rw [heq]
            dsimp only
            refine button_inv_mk_emit ht hpt hrt hemt2 (le_refl t) hemok
              ?_ hsort hltp ?_
            · simp only [EmOk]
              omega
            · simp only [ButtonStateInv]
              exact ⟨trivial, by omega⟩
        | false =>
          have heq : button_process t pin ⟨ButtonState.PRESSED, p, r, false, false⟩ =
              (⟨ButtonState.LONG_PRESS_TRIGGERED, p, r, false, true⟩,
               some ⟨PressKind.long, t, p, r⟩) := by
            simp [button_process, hlong]
          rw [heq]
          dsimp only
          refine button_inv_mk_emit ht hpt hrt hemt2 (le_refl t) hemok
            ?_ hsort hltp ?_
          · simp only [EmOk]
            omega
          · simp only [ButtonStateInv]
            exact ⟨trivial, by omega⟩
    · have hlong2 := hlong
      rw [hel_p] at hlong2
      cases ip with
      | true =>
        cases pin with
        | false =>
          have heq : button_process t false ⟨ButtonState.PRESSED, p, r, true, lf⟩ =
              (⟨ButtonState.DEBOUNCE_RELEASE, p, t, false, lf⟩, none) := by
            cases lf <;> simp [button_process, hlong]
          rw [heq]
          dsimp only
          refine button_inv_mk_noemit ht hpt (le_refl t) hemt2 hemok hsort ?_
          simp only [ButtonStateInv]
          refine ⟨by omega, fun hlf => ⟨by omega, hlf_f hlf⟩, fun hlf => ?_⟩
          have := hlf_t hlf
          omega
        | true =>
          have heq : button_process t true ⟨ButtonState.PRESSED, p, r, true, lf⟩ =
              (⟨ButtonState.PRESSED, p, r, false, lf⟩, none) := by
            cases lf <;> simp [button_process, hlong]
          rw [heq]
          dsimp only
          refine button_inv_mk_noemit ht hpt hrt hemt2 hemok hsort ?_
          simp only [ButtonStateInv]
          refine ⟨by omega, hlf_f, fun hlf => ?_⟩
          have := hlf_t hlf
          omega
      | false =>
        have heq : button_process t pin ⟨ButtonState.PRESSED, p, r, false, lf⟩ =
            (⟨ButtonState.PRESSED, p, r, false, lf⟩, none) := by
          cases lf <;> simp [button_process, hlong]
        rw [heq]
        dsimp only
        refine button_inv_mk_noemit ht hpt hrt hemt2 hemok hsort ?_
        simp only [ButtonStateInv]
        refine ⟨by omega, hlf_f, fun hlf => ?_⟩
        have := hlf_t hlf
        omega
  | DEBOUNCE_RELEASE =>
    simp only [ButtonStateInv] at hstate
    obtain ⟨hpr, hlf_f, hlf_t⟩ := hstate
    by_cases hd : BUTTON_DEBOUNCE_MS ≤ elapsed32 t r
    · have hd2 := hd
      rw [hel_r] at hd2
      cases pin with
      | false =>
        cases lf with
        | false =>
          obtain ⟨hr3000, hltp⟩ := hlf_f rfl
          have heq : button_process t false
              ⟨ButtonState.DEBOUNCE_RELEASE, p, r, ip, false⟩ =
              (⟨ButtonState.IDLE, p, r, ip, false⟩,
               some ⟨PressKind.short, t, p, r⟩) := by
            simp [button_process, hd]
          rw [heq]
          dsimp only
          refine button_inv_mk_emit ht hpt hrt hemt2 (le_refl t) hemok
            ?_ hsort hltp trivial
          simp only [EmOk]
          omega
        | true =>
          have heq : button_process t false
              ⟨ButtonState.DEBOUNCE_RELEASE, p, r, ip, true⟩ =
              (⟨ButtonState.IDLE, p, r, ip, true⟩, none) := by
            simp [button_process, hd]
          rw [heq]
          dsimp only
          exact button_inv_mk_noemit ht hpt hrt hemt2 hemok hsort trivial
      | true =>
        have heq : button_process t true
            ⟨ButtonState.DEBOUNCE_RELEASE, p, r, ip, lf⟩ =
            (⟨ButtonState.PRESSED, p, r, ip, lf⟩, none) := by
          simp [button_process, hd]
        rw [heq]
        dsimp only
        refine button_inv_mk_noemit ht hpt hrt hemt2 hemok hsort ?_
        simp only [ButtonStateInv]
        refine ⟨by omega, fun hlf => (hlf_f hlf).2, fun hlf => ?_⟩
        have := hlf_t hlf
        omega
    · have heq : button_process t pin
          ⟨ButtonState.DEBOUNCE_RELEASE, p, r, ip, lf⟩ =
          (⟨ButtonState.DEBOUNCE_RELEASE, p, r, ip, lf⟩, none) := by
        simp [button_process, hd]
      rw [heq]
      dsimp only
      refine button_inv_mk_noemit ht hpt hrt hemt2 hemok hsort ?_
      simp only [ButtonStateInv]
      exact ⟨hpr, hlf_f, hlf_t⟩
  | LONG_PRESS_TRIGGERED =>
    simp only [ButtonStateInv] at hstate
    obtain ⟨hlft, hp3⟩ := hstate
    subst hlft
    cases ip with
    | true =>
      cases pin with
      | false =>
        have heq : button_process t false
            ⟨ButtonState.LONG_PRESS_TRIGGERED, p, r, true, true⟩ =
            (⟨ButtonState.DEBOUNCE_RELEASE, p, t, false, true⟩, none) := by
          simp [button_process]
        rw [heq]
        dsimp only
        refine button_inv_mk_noemit ht hpt (le_refl t) hemt2 hemok hsort ?_
        simp only [ButtonStateInv]
        exact ⟨by omega, fun hff => absurd hff (by decide), fun _ => by omega⟩
      | true =>
        have heq : button_process t true
            ⟨ButtonState.LONG_PRESS_TRIGGERED, p, r, true, true⟩ =
            (⟨ButtonState.LONG_PRESS_TRIGGERED, p, r, false, true⟩, none) := by
          simp [button_process]
        rw [heq]
        dsimp only
        refine button_inv_mk_noemit ht hpt hrt hemt2 hemok hsort ?_
        simp only [ButtonStateInv]
        exact ⟨trivial, by omega⟩
    | false =>
      have heq : button_process t pin
          ⟨ButtonState.LONG_PRESS_TRIGGERED, p, r, false, true⟩ =
          (⟨ButtonState.LONG_PRESS_TRIGGERED, p, r, false, true⟩, none) := by
        simp [button_process]
      rw [heq]
      dsimp only
      refine button_inv_mk_noemit ht hpt hrt hemt2 hemok hsort ?_
      simp only [ButtonStateInv]
      exact ⟨trivial, by omega⟩

/-- The button invariant is insensitive to the ISR flag set by
button_gpio_callback. -/
lemma button_inv_irq (tLo : Nat) (c : ButtonCtx) (ems : List Emission)
    (h : ButtonInv tLo c ems) :
    ButtonInv tLo { c with interruptPending := true } ems := by
  obtain ⟨st, p, r, ip, lf⟩ := c
  obtain ⟨h32, hp, hr, hemt, hemok, hsort, hstate⟩ := h
  refine ⟨h32, hp, hr, hemt, hemok, hsort, ?_⟩
  cases st <;> exact hstate

/-- The invariant propagates along any valid event trace. -/
lemma button_run_inv (evs : List BEvent) :
    ∀ (tLo : Nat) (c : ButtonCtx) (ems : List Emission),
      ButtonInv tLo c ems → validFrom tLo evs = true →
      ∃ tLo2, ButtonInv tLo2 (buttonRun c evs).1 (ems ++ (buttonRun c evs).2) := by
  induction evs with
  | nil =>
    intro tLo c ems h _
    exact ⟨tLo, by simpa [buttonRun] using h⟩
  | cons e rest ih =>
    intro tLo c ems h hv
    cases e with
    | irq =>
      have h1 := button_inv_irq tLo c ems h
      have hv1 : validFrom tLo rest = true := hv
      obtain ⟨tLo2, h2⟩ := ih tLo _ ems h1 hv1
      exact ⟨tLo2, by simpa [buttonRun, buttonStep] using h2⟩
    | proc t pin =>
      simp only [validFrom, Bool.and_eq_true, decide_eq_true_eq] at hv
      obtain ⟨⟨hlo, htt⟩, hrest⟩ := hv
      have h1 := button_inv_proc t pin tLo c ems h hlo htt
      rcases hbp : button_process t pin c with ⟨c1, em⟩
      rw [hbp] at h1
      obtain ⟨tLo2, h2⟩ := ih t c1 (ems ++ em.toList) h1 hrest
      refine ⟨tLo2, ?_⟩
      simp only [buttonRun, buttonStep, hbp]
      rcases hbr : buttonRun c1 rest with ⟨c2, ems2⟩
      rw [hbr] at h2
      simpa [List.append_assoc] using h2

/-- In DEBOUNCE_RELEASE the latch records exactly whether the confirmed
held interval reached the long threshold. -/
lemma dr_latch_iff (tLo : Nat) (c : ButtonCtx) (ems : List Emission)
    (h : ButtonInv tLo c ems) (hdr : c.state = ButtonState.DEBOUNCE_RELEASE) :
    (c.longPressTriggered = false ↔
      c.releaseTimestamp < c.pressTimestamp + BUTTON_LONG_PRESS_MS) := by
  obtain ⟨st, p, r, ip, lf⟩ := c
  dsimp only at hdr ⊢
  subst hdr
  have hstate := h.state_inv
  simp only [ButtonStateInv] at hstate
  obtain ⟨hpr, hlf_f, hlf_t⟩ := hstate
  cases lf with
  | false => exact ⟨fun _ => (hlf_f rfl).1, fun _ => rfl⟩
  | true =>
    constructor
    · intro hff
      exact absurd hff (by decide)
    · intro hlt
      exact absurd (hlf_t rfl) (by omega)

/-- C1: over every valid trace of edge interrupts and button_process
calls (times monotone, span within the uint32 clock), with p and r the
debounce-confirmed press and release timestamps the FSM records:
every emitted short_press satisfies p + 50 ≤ r, r + 50 ≤ t and
r − p < 3000; every emitted long_press fires at a call at least 3000 ms
after p; emissions carry strictly increasing press timestamps, so each
confirmed press episode emits at most one event; in DEBOUNCE_RELEASE
the latch equals the episode having reached 3000 ms, so a confirmed
release emits short_press exactly when r − p < 3000; and conversely a
still-pressed episode emits long_press at the first call 3000 ms past
p, without waiting for release, and a confirmed release with the latch
clear emits short_press. -/
theorem button_press_classification :
    (∀ evs : List BEvent, validFrom 0 evs = true →
      (∀ em ∈ (buttonRun buttonInit evs).2,
        (em.kind = PressKind.short →
          em.press + BUTTON_DEBOUNCE_MS ≤ em.release ∧
          em.release + BUTTON_DEBOUNCE_MS ≤ em.time ∧
          em.release < em.press + BUTTON_LONG_PRESS_MS) ∧
        (em.kind = PressKind.long →
          em.press + BUTTON_LONG_PRESS_MS ≤ em.time)) ∧
      List.Pairwise (fun a b => a.press < b.press) (buttonRun buttonInit evs).2 ∧
      ((buttonRun buttonInit evs).1.state = ButtonState.DEBOUNCE_RELEASE →
        ((buttonRun buttonInit evs).1.longPressTriggered = false ↔
          (buttonRun buttonInit evs).1.releaseTimestamp <
            (buttonRun buttonInit evs).1.pressTimestamp + BUTTON_LONG_PRESS_MS))) ∧
    (∀ (t : Nat) (pin : Bool) (c : ButtonCtx),
      c.state = ButtonState.PRESSED → c.longPressTriggered = false →
      c.pressTimestamp + BUTTON_LONG_PRESS_MS ≤ t → t < 4294967296 →
      ∃ rel, (button_process t pin c).2 =
        some { kind := PressKind.long, time := t, press := c.pressTimestamp,
               release := rel }) ∧
    (∀ (t : Nat) (c : ButtonCtx),
      c.state = ButtonState.DEBOUNCE_RELEASE → c.longPressTriggered = false →
      c.releaseTimestamp + BUTTON_DEBOUNCE_MS ≤ t → t < 4294967296 →
      (button_process t false c).2 =
        some { kind := PressKind.short, time := t, press := c.pressTimestamp,
               release := c.releaseTimestamp }) := by
  refine ⟨?_, ?_, ?_⟩
  · intro evs hvalid
    have hinit : ButtonInv 0 buttonInit [] :=
      ⟨by decide, le_refl 0, le_refl 0, by simp, by simp,
       List.Pairwise.nil, trivial⟩
    obtain ⟨tLo2, hinv⟩ := button_run_inv evs 0 buttonInit [] hinit hvalid
    rw [List.nil_append] at hinv
    refine ⟨?_, hinv.ems_sorted, dr_latch_iff tLo2 _ _ hinv⟩
    intro em hm
    have hok := hinv.ems_ok em hm
    obtain ⟨k, tm, pr, rl⟩ := em
    cases k with
    | short =>
      refine ⟨fun _ => ?_, fun hk => by simp at hk⟩
      simp only [EmOk] at hok
      exact hok
    | long =>
      refine ⟨fun hk => by simp at hk, fun _ => ?_⟩
      simp only [EmOk] at hok
      exact hok
  · intro t pin c hst hlf hp3 ht
    obtain ⟨st, p, r, ip, lf⟩ := c
    dsimp only at hst hlf hp3 ⊢
    subst hst
    subst hlf
    have hL : BUTTON_LONG_PRESS_MS = 3000 := rfl
    have hpt : p ≤ t := by omega
    have hel : elapsed32 t p = t - p := elapsed32_eq t p hpt ht
    have hcond : BUTTON_LONG_PRESS_MS ≤ elapsed32 t p := by
      rw [hel]
      omega
    cases ip with
    | true =>
      cases pin with
      | false => exact ⟨t, by simp [button_process, hcond]⟩
      | true => exact ⟨r, by simp [button_process, hcond]⟩
    | false => exact ⟨r, by simp [button_process, hcond]⟩
  · intro t c hst hlf hd ht
    obtain ⟨st, p, r, ip, lf⟩ := c
    dsimp only at hst hlf hd ⊢
    subst hst
    subst hlf
    have hD : BUTTON_DEBOUNCE_MS = 50 := rfl
    have hrt : r ≤ t := by omega
    have hel : elapsed32 t r = t - r := elapsed32_eq t r hrt ht
    have hcond : BUTTON_DEBOUNCE_MS ≤ elapsed32 t r := by
      rw [hel]
      omega
    simp [button_process, hcond]

/-- Witness for button_press_classification on the concrete trace and
on concrete contexts for the two emission-completeness parts. -/
theorem button_press_classification_witness :
    (validFrom 0 buttonWitnessTrace = true ∧
      ((∀ em ∈ (buttonRun buttonInit buttonWitnessTrace).2,
        (em.kind = PressKind.short →
          em.press + BUTTON_DEBOUNCE_MS ≤ em.release ∧
          em.release + BUTTON_DEBOUNCE_MS ≤ em.time ∧
          em.release < em.press + BUTTON_LONG_PRESS_MS) ∧
        (em.kind = PressKind.long →
          em.press + BUTTON_LONG_PRESS_MS ≤ em.time)) ∧
      List.Pairwise (fun a b => a.press < b.press)
        (buttonRun buttonInit buttonWitnessTrace).2 ∧
      ((buttonRun buttonInit buttonWitnessTrace).1.state =
          ButtonState.DEBOUNCE_RELEASE →
        ((buttonRun buttonInit buttonWitnessTrace).1.longPressTriggered = false ↔
          (buttonRun buttonInit buttonWitnessTrace).1.releaseTimestamp <
            (buttonRun buttonInit buttonWitnessTrace).1.pressTimestamp +
              BUTTON_LONG_PRESS_MS)))) ∧
    (∃ rel, (button_process 3000 true
        ⟨ButtonState.PRESSED, 0, 0, false, false⟩).2 =
      some { kind := PressKind.long, time := 3000, press := 0,
             release := rel }) ∧
    (button_process 160 false
        ⟨ButtonState.DEBOUNCE_RELEASE, 0, 100, false, false⟩).2 =
      some { kind := PressKind.short, time := 160, press := 0,
             release := 100 } :=
  ⟨⟨by decide, button_press_classification.1 buttonWitnessTrace (by decide)⟩,
   button_press_classification.2.1 3000 true
     ⟨ButtonState.PRESSED, 0, 0, false, false⟩ rfl rfl (by decide) (by decide),
   button_press_classification.2.2 160
     ⟨ButtonState.DEBOUNCE_RELEASE, 0, 100, false, false⟩ rfl rfl
     (by decide) (by decide)⟩

end Sed
